import Mathlib

/-!
Shallow embedding of server.js from the ROBEKC top-up web template
(src/template_web_top_up_legal_robekc.js).

The server keeps two SQLite tables (orders, admins) and per-request session
state.  We model the database as an explicit `DB` value threaded through the
handlers, the request-body fields as `Option String` (a JSON field is either
absent or a string; JavaScript falsiness of a string is emptiness), and each
Express route handler as a pure function from the request data and the current
`DB` to a response and the next `DB`.  Randomness (uuidv4) and bcrypt are
abstracted as injective deterministic functions, and the SQLite
CURRENT_TIMESTAMP column as a strictly increasing per-insert sequence number;
both abstractions are noted at the corresponding definitions.
-/

namespace Robekc

/-- A row of the `orders` table:
`id TEXT PRIMARY KEY, user TEXT, game TEXT, amount INTEGER, status TEXT,
created_at DATETIME DEFAULT CURRENT_TIMESTAMP`. -/
structure Order where
  id : String
  user : String
  game : String
  amount : Int
  status : String
  created_at : Nat
deriving Repr, DecidableEq

/-- A row of the `admins` table:
`id INTEGER PRIMARY KEY AUTOINCREMENT, username TEXT UNIQUE, password_hash TEXT`. -/
structure Admin where
  id : Nat
  username : String
  password_hash : String
deriving Repr, DecidableEq

/-- The value stored in `req.session.admin` on successful login:
`{ id: row.id, username: row.username }`. -/
structure SessionData where
  id : Nat
  username : String
deriving Repr, DecidableEq

/-- The server-side state: the two tables, plus the sequence counters that
model uuid generation / `created_at` timestamps and the AUTOINCREMENT key of
`admins`. -/
structure DB where
  orders : List Order
  admins : List Admin
  nextOrderSeq : Nat
  nextAdminId : Nat
deriving Repr, DecidableEq

/-- JavaScript falsiness of a request-body field modelled as `Option String`:
`!x` is true when the field is absent or the empty string. -/
def jsFalsy : Option String → Bool
  | none => true
  | some s => s = ""

/-- JavaScript `parseInt(s, 10)`: skip leading whitespace, read an optional
sign, then the longest prefix of decimal digits; `none` models the `NaN`
result when no digit is found. -/
def parseIntJS (s : String) : Option Int :=
  let cs := s.data.dropWhile (fun c => c.isWhitespace)
  let signed : Int × List Char :=
    match cs with
    | '-' :: t => (-1, t)
    | '+' :: t => (1, t)
    | _ => (1, cs)
  let ds := signed.2.takeWhile (fun c => c.isDigit)
  if ds.isEmpty then none
  else some (signed.1 * (ds.foldl (fun acc c => acc * 10 + (c.toNat - 48)) 0 : Nat))

/-- Modelled: `uuidv4()` random UUID generation is abstracted as an injective
function of a per-process sequence number carried in `DB`; the
collision-freedom the code relies on (`id TEXT PRIMARY KEY`) is modelled as
injectivity of this function. -/
def uuidv4 (n : Nat) : String := String.mk ('u' :: List.replicate n 'x')

/-- Modelled: `bcrypt.hash` is abstracted as an injective deterministic
tagging of the password; the random salt and the cost factor (10 in the
seeding code) are below this abstraction. -/
def bcryptHash (password : String) : String := "bcrypt-hash-of-" ++ password

/-- Modelled: `bcrypt.compare(password, hash)` succeeds exactly when `hash`
is the stored hash of `password`. -/
def bcryptCompare (password h : String) : Bool := h = bcryptHash password

/-- `SELECT * FROM admins WHERE username = ?` (username is UNIQUE, so the
first match is the only match). -/
def findAdmin (admins : List Admin) (username : String) : Option Admin :=
  admins.find? (fun a => a.username == username)

/-- Response of `POST /api/topup`: an error status/body, or
`{ orderId, paymentUrl }`. -/
inductive CreateOrderResp where
  | error : Nat → String → CreateOrderResp
  | ok : String → String → CreateOrderResp
deriving Repr, DecidableEq

/-- Response of `POST /api/webhook/mock-pay`. -/
inductive MarkPaidResp where
  | error : Nat → String → MarkPaidResp
  | ok : MarkPaidResp
deriving Repr, DecidableEq

/-- Response of `POST /api/admin/login`. -/
inductive LoginResp where
  | error : Nat → String → LoginResp
  | ok : LoginResp
deriving Repr, DecidableEq

/-- Response of `GET /api/admin/orders`. -/
inductive ListOrdersResp where
  | error : Nat → String → ListOrdersResp
  | ok : List Order → ListOrdersResp
deriving Repr, DecidableEq

/-- Handler of `POST /api/topup`: validates the body
(`if (!user || !game || !amount) return 400`), parses the amount with
`parseInt(amount, 10)` (`if (isNaN(n) || n <= 0) return 400`), then inserts
the order with a fresh uuid and status PENDING and answers with the order id
and the mock payment URL. -/
def createOrder (db : DB) (user game amount : Option String) (proto host : String) :
    CreateOrderResp × DB :=
  if jsFalsy user || jsFalsy game || jsFalsy amount then
    (.error 400 "Missing fields", db)
  else
    match parseIntJS (amount.getD "") with
    | none => (.error 400 "Invalid amount", db)
    | some numericAmount =>
      if numericAmount ≤ 0 then (.error 400 "Invalid amount", db)
      else
        let id := uuidv4 db.nextOrderSeq
        let ord : Order :=
          { id := id, user := user.getD "", game := game.getD "",
            amount := numericAmount, status := "PENDING",
            created_at := db.nextOrderSeq }
        (.ok id (proto ++ "://" ++ host ++ "/success?order=" ++ id),
         { db with orders := db.orders ++ [ord], nextOrderSeq := db.nextOrderSeq + 1 })

/-- Handler of `POST /api/webhook/mock-pay`:
`if (!orderId) return 400`, then
`UPDATE orders SET status = 'PAID' WHERE id = ?` and answer `{ ok: true }`
whether or not any row matched. -/
def markPaid (db : DB) (orderId : Option String) : MarkPaidResp × DB :=
  if jsFalsy orderId then
    (.error 400 "missing orderId", db)
  else
    (.ok,
     { db with orders := db.orders.map (fun o =>
         if o.id = orderId.getD "" then { o with status := "PAID" } else o) })

/-- Handler of `POST /api/admin/login`: `if (!username || !password) return 400`;
look the username up; 401 when no row; `bcrypt.compare`; on success store
`{ id, username }` in the session, else 401.  The second component is the
session established by the request (`none` when no session is established). -/
def login (db : DB) (username password : Option String) :
    LoginResp × Option SessionData :=
  if jsFalsy username || jsFalsy password then
    (.error 400 "Missing", none)
  else
    match findAdmin db.admins (username.getD "") with
    | none => (.error 401 "Unauthorized", none)
    | some row =>
      if bcryptCompare (password.getD "") row.password_hash then
        (.ok, some { id := row.id, username := row.username })
      else (.error 401 "Unauthorized", none)

/-- The rows of `SELECT * FROM orders ORDER BY created_at DESC LIMIT 200`.
`created_at` is the strictly increasing insertion sequence number, so
descending `created_at` order is the reverse of insertion order. -/
def ordersQuery (db : DB) : List Order := (db.orders.reverse).take 200

/-- Handler of `GET /api/admin/orders`:
`if (!req.session.admin) return 401`, else return the query rows. -/
def listOrders (db : DB) (session : Option SessionData) : ListOrdersResp :=
  match session with
  | none => .error 401 "unauth"
  | some _ => .ok (ordersQuery db)

/-- Start-up seeding: `SELECT COUNT(*) as c FROM admins`; when the count is 0,
hash the default password 'changeit' and
`INSERT INTO admins(username,password_hash) VALUES('admin', hash)`. -/
def seedAdmins (db : DB) : DB :=
  if db.admins.length = 0 then
    { db with
      admins := db.admins ++
        [{ id := db.nextAdminId, username := "admin",
           password_hash := bcryptHash "changeit" }],
      nextAdminId := db.nextAdminId + 1 }
  else db

/-- The freshly created database file: both tables empty, AUTOINCREMENT at 1. -/
def emptyDB : DB := { orders := [], admins := [], nextOrderSeq := 0, nextAdminId := 1 }

/-- The state after process start: tables created and the admin seeding run. -/
def initDB : DB := seedAdmins emptyDB

/-- The database-mutating requests: `POST /api/topup` and
`POST /api/webhook/mock-pay` (login, order listing and logout never write
to the database). -/
inductive Req where
  | topup (user game amount : Option String) (proto host : String)
  | mockPay (orderId : Option String)

/-- One request step on the database state. -/
def step (db : DB) (r : Req) : DB :=
  match r with
  | .topup u g a p h => (createOrder db u g a p h).2
  | .mockPay oid => (markPaid db oid).2

/-- The database states reachable from process start by any sequence of
requests. -/
inductive Reachable : DB → Prop where
  | init : Reachable initDB
  | next (db : DB) (r : Req) : Reachable db → Reachable (step db r)

/-- The state invariant maintained by every request: statuses are PENDING or
PAID, each order's id is the uuid of its creation sequence number and that
number is below the counter, creation numbers strictly increase along the
table, and admin usernames are distinct (the UNIQUE column). -/
structure Inv (db : DB) : Prop where
  statusOk : ∀ o ∈ db.orders, o.status = "PENDING" ∨ o.status = "PAID"
  idSeq : ∀ o ∈ db.orders, o.id = uuidv4 o.created_at ∧ o.created_at < db.nextOrderSeq
  createdMono : db.orders.Pairwise (fun a b => a.created_at < b.created_at)
  adminsNodup : (db.admins.map (fun a => a.username)).Nodup

/-- The state after one valid top-up request on the fresh server: used to
instantiate claims at a concrete reachable state. -/
def dbOne : DB :=
  step initDB (Req.topup (some "alice") (some "COIN-100") (some "50000") "http" "localhost:3000")

/-- The single order record held by `dbOne`. -/
def ordOne : Order :=
  { id := uuidv4 0, user := "alice", game := "COIN-100", amount := 50000,
    status := "PENDING", created_at := 0 }

theorem uuidv4_injective : Function.Injective uuidv4 := by
  intro a b h
  have hlen : ('u' :: List.replicate a 'x').length = ('u' :: List.replicate b 'x').length := by
    have := congrArg String.data h
    simpa [uuidv4] using congrArg List.length this
  simpa using hlen

theorem inv_initDB : Inv initDB := by
  refine ⟨?_, ?_, ?_, ?_⟩ <;> simp [initDB, seedAdmins, emptyDB]

theorem inv_step (db : DB) (r : Req) (h : Inv db) : Inv (step db r) := by
  cases r with
  | topup u g a p host =>
    simp only [step, createOrder]
    by_cases hf : jsFalsy u || jsFalsy g || jsFalsy a
    · simpa [hf] using h
    · simp only [hf]
      cases hpa : parseIntJS (a.getD "") with
      | none => simpa using h
      | some n =>
        by_cases hn : n ≤ 0
        · simpa [hn] using h
        · simp only [hn]
          refine ⟨?_, ?_, ?_, ?_⟩
          · intro o ho
            rcases List.mem_append.1 ho with ho2 | ho2
            · exact h.statusOk o ho2
            · rw [List.mem_singleton.1 ho2]; left; rfl
          · intro o ho
            rcases List.mem_append.1 ho with ho2 | ho2
            · exact ⟨(h.idSeq o ho2).1, Nat.lt_succ_of_lt (h.idSeq o ho2).2⟩
            · rw [List.mem_singleton.1 ho2]; exact ⟨rfl, Nat.lt_succ_self _⟩
          · refine List.pairwise_append.2 ⟨h.createdMono, List.pairwise_singleton _ _, ?_⟩
            intro o ho o2 ho2
            rw [List.mem_singleton.1 ho2]
            exact (h.idSeq o ho).2
          · exact h.adminsNodup
  | mockPay oid =>
    simp only [step, markPaid]
    by_cases hf : jsFalsy oid
    · simpa [hf] using h
    · simp only [hf]
      refine ⟨?_, ?_, ?_, ?_⟩
      · intro o ho
        obtain ⟨o0, ho0, rfl⟩ := List.mem_map.1 ho
        by_cases hid : o0.id = oid.getD ""
        · simp [hid]
        · simpa [hid] using h.statusOk o0 ho0
      · intro o ho
        obtain ⟨o0, ho0, rfl⟩ := List.mem_map.1 ho
        by_cases hid : o0.id = oid.getD ""
        · simpa [hid] using h.idSeq o0 ho0
        · simpa [hid] using h.idSeq o0 ho0
      · refine List.Pairwise.map _ ?_ h.createdMono
        intro o o2 hlt
        by_cases hid : o.id = oid.getD "" <;> by_cases hid2 : o2.id = oid.getD "" <;>
          simpa [hid, hid2] using hlt
      · exact h.adminsNodup

theorem reachable_inv (db : DB) (h : Reachable db) : Inv db := by
  induction h with
  | init => exact inv_initDB
  | next db r _ ih => exact inv_step db r ih

theorem uuidv4_ne_empty (n : Nat) : uuidv4 n ≠ "" := by
  intro h
  have := congrArg String.data h
  simp [uuidv4] at this

theorem inv_id_inj (db : DB) (h : Inv db) :
    ∀ o ∈ db.orders, ∀ o2 ∈ db.orders, o.id = o2.id → o = o2 := by
  intro o ho o2 ho2 hid
  have hc : o.created_at = o2.created_at := by
    apply uuidv4_injective
    rw [← (h.idSeq o ho).1, ← (h.idSeq o2 ho2).1, hid]
  by_contra hne
  have hpair : db.orders.Pairwise (fun a b => a.created_at ≠ b.created_at) :=
    h.createdMono.imp (fun hlt => Nat.ne_of_lt hlt)
  exact hpair.forall (fun _ _ hab => hab.symm) ho ho2 hne hc

/-- C1: for every CreateOrder request, if user, game or amount is missing
(JavaScript-falsy), or the amount does not parse to an integer greater than 0
(zero, negative or non-numeric), the handler answers 400 with an error body and
the database is unchanged: no order record is created. -/
theorem C1_createOrder_validation (db : DB) (user game amount : Option String)
    (proto host : String)
    (h : jsFalsy user = true ∨ jsFalsy game = true ∨ jsFalsy amount = true ∨
         ∃ a, amount = some a ∧ (parseIntJS a).getD 0 ≤ 0) :
    ∃ msg, createOrder db user game amount proto host = (.error 400 msg, db) := by
  by_cases hfu : jsFalsy user = true
  · exact ⟨"Missing fields", by simp [createOrder, hfu]⟩
  by_cases hfg : jsFalsy game = true
  · exact ⟨"Missing fields", by simp [createOrder, hfg]⟩
  by_cases hfa : jsFalsy amount = true
  · exact ⟨"Missing fields", by simp [createOrder, hfa]⟩
  rcases h with h1 | h1 | h1 | ⟨a, rfl, hle⟩
  · exact absurd h1 hfu
  · exact absurd h1 hfg
  · exact absurd h1 hfa
  · rw [Bool.not_eq_true] at hfu hfg hfa
    cases hpa : parseIntJS a with
    | none =>
      exact ⟨"Invalid amount", by simp [createOrder, hfu, hfg, hfa, hpa]⟩
    | some n =>
      rw [hpa] at hle
      have hn : n ≤ 0 := hle
      exact ⟨"Invalid amount", by simp [createOrder, hfu, hfg, hfa, hpa, hn]⟩

theorem C1_createOrder_validation_witness :
    ∃ msg, createOrder initDB (some "alice") (some "COIN-100") (some "0")
      "http" "localhost:3000" = (.error 400 msg, initDB) :=
  C1_createOrder_validation initDB (some "alice") (some "COIN-100") (some "0")
    "http" "localhost:3000" (Or.inr (Or.inr (Or.inr ⟨"0", rfl, by decide⟩)))

/-- C10: the handler parses the submitted amount with parseInt(amount, 10), so
a string whose leading characters form a positive decimal integer is accepted
even when it is not an exact integer string (for instance parseInt truncates
"5.7" to 5 and "10abc" to 10), and the persisted amount is the parsed leading
integer, which may differ from the submitted value. -/
theorem C10_parseInt_truncation (db : DB) (u g a : String) (n : Int)
    (proto host : String) (hu : u ≠ "") (hg : g ≠ "")
    (hpa : parseIntJS a = some n) (hn : 0 < n) :
    (parseIntJS "5.7" = some 5 ∧ parseIntJS "10abc" = some 10) ∧
    createOrder db (some u) (some g) (some a) proto host =
      (.ok (uuidv4 db.nextOrderSeq)
        (proto ++ "://" ++ host ++ "/success?order=" ++ uuidv4 db.nextOrderSeq),
       { db with
         orders := db.orders ++
           [{ id := uuidv4 db.nextOrderSeq, user := u, game := g, amount := n,
              status := "PENDING", created_at := db.nextOrderSeq }],
         nextOrderSeq := db.nextOrderSeq + 1 }) := by
  have ha : a ≠ "" := by
    intro h0
    rw [h0] at hpa
    exact Option.noConfusion hpa
  refine ⟨⟨by decide, by decide⟩, ?_⟩
  simp [createOrder, jsFalsy, hu, hg, ha, hpa, hn.not_le]

theorem C10_parseInt_truncation_witness :
    (parseIntJS "5.7" = some 5 ∧ parseIntJS "10abc" = some 10) ∧
    createOrder initDB (some "alice") (some "COIN-100") (some "5.7")
      "http" "localhost:3000" =
      (.ok (uuidv4 initDB.nextOrderSeq)
        ("http" ++ "://" ++ "localhost:3000" ++ "/success?order=" ++
          uuidv4 initDB.nextOrderSeq),
       { initDB with
         orders := initDB.orders ++
           [{ id := uuidv4 initDB.nextOrderSeq, user := "alice", game := "COIN-100",
              amount := 5, status := "PENDING", created_at := initDB.nextOrderSeq }],
         nextOrderSeq := initDB.nextOrderSeq + 1 }) :=
  C10_parseInt_truncation initDB "alice" "COIN-100" "5.7" 5 "http" "localhost:3000"
    (by decide) (by decide) (by decide) (by decide)

/-- C2 as stated is false at the input orderId = "": that orderId is present in
the request body, yet the handler's JavaScript-falsiness check rejects it with
400 and performs no update, instead of reporting success as the claim requires
for every present orderId. -/
theorem C2_counterexample :
    markPaid emptyDB (some "") = (.error 400 "missing orderId", emptyDB) ∧
    (markPaid emptyDB (some "")).1 ≠ MarkPaidResp.ok := by
  constructor
  · simp [markPaid, jsFalsy, emptyDB]
  · simp [markPaid, jsFalsy]

/-- C2 amended: MarkPaid fails with 400 when orderId is absent or is the empty
string (both are JavaScript-falsy); for every present non-empty orderId it
answers success and issues the update setting status to PAID on every matching
record, and when no record matches the store is unchanged while the handler
still reports success. -/
theorem C2_markPaid_amended (db : DB) :
    markPaid db none = (.error 400 "missing orderId", db) ∧
    markPaid db (some "") = (.error 400 "missing orderId", db) ∧
    ∀ oid : String, oid ≠ "" →
      markPaid db (some oid) =
        (.ok, { db with orders := db.orders.map (fun o =>
            if o.id = oid then { o with status := "PAID" } else o) }) ∧
      ((∀ o ∈ db.orders, o.id ≠ oid) → (markPaid db (some oid)).2 = db) := by
  refine ⟨by simp [markPaid, jsFalsy], by simp [markPaid, jsFalsy], ?_⟩
  intro oid hoid
  have hok : markPaid db (some oid) =
      (.ok, { db with orders := db.orders.map (fun o =>
          if o.id = oid then { o with status := "PAID" } else o) }) := by
    simp [markPaid, jsFalsy, hoid]
  refine ⟨hok, ?_⟩
  intro hnone
  rw [hok]
  have hmap : db.orders.map (fun o =>
      if o.id = oid then { o with status := "PAID" } else o) = db.orders := by
    rw [List.map_congr_left (fun o ho => if_neg (hnone o ho))]
    exact List.map_id' db.orders
  simp [hmap]

theorem C2_markPaid_amended_witness :
    (markPaid emptyDB (some "abc")).2 = emptyDB :=
  ((C2_markPaid_amended emptyDB).2.2 "abc" (by decide)).2
    (by intro o ho; simp [emptyDB] at ho)

theorem step_orders_cases (db : DB) (r : Req) :
    (step db r).orders = db.orders ∨
    (∃ u g n, (step db r).orders = db.orders ++
        [{ id := uuidv4 db.nextOrderSeq, user := u, game := g, amount := n,
           status := "PENDING", created_at := db.nextOrderSeq }]) ∨
    (∃ oid : String, (step db r).orders = db.orders.map (fun o =>
        if o.id = oid then { o with status := "PAID" } else o)) := by
  cases r with
  | topup u g a p host =>
    by_cases hf : (jsFalsy u || jsFalsy g || jsFalsy a) = true
    · left; simp [step, createOrder, hf]
    · cases hpa : parseIntJS (a.getD "") with
      | none => left; simp [step, createOrder, hf, hpa]
      | some n =>
        by_cases hn : n ≤ 0
        · left; simp [step, createOrder, hf, hpa, hn]
        · right; left
          exact ⟨u.getD "", g.getD "", n, by simp [step, createOrder, hf, hpa, hn]⟩
  | mockPay oid =>
    by_cases hf : jsFalsy oid = true
    · left; simp [step, markPaid, hf]
    · right; right
      exact ⟨oid.getD "", by simp [step, markPaid, hf]⟩

/-- C3: in every reachable state of the orders store, each order's status is
PENDING or PAID; across any further request, an order that is PAID never goes
back (any order in the next state with the same id is still PAID); and any
order appearing in the next state under an id not present before has status
PENDING (orders start at PENDING at creation). -/
theorem C3_status_machine (db : DB) (h : Reachable db) :
    (∀ o ∈ db.orders, o.status = "PENDING" ∨ o.status = "PAID") ∧
    (∀ r : Req, ∀ o ∈ db.orders, o.status = "PAID" →
      ∀ o2 ∈ (step db r).orders, o2.id = o.id → o2.status = "PAID") ∧
    (∀ r : Req, ∀ o2 ∈ (step db r).orders,
      (∀ o ∈ db.orders, o.id ≠ o2.id) → o2.status = "PENDING") := by
  have hinv := reachable_inv db h
  refine ⟨hinv.statusOk, ?_, ?_⟩
  · intro r o ho hpaid o2 ho2 hid
    rcases step_orders_cases db r with hs | ⟨u, g, n, hs⟩ | ⟨oid, hs⟩
    · rw [hs] at ho2
      rw [inv_id_inj db hinv o2 ho2 o ho hid]
      exact hpaid
    · rw [hs] at ho2
      rcases List.mem_append.1 ho2 with h2 | h2
      · rw [inv_id_inj db hinv o2 h2 o ho hid]
        exact hpaid
      · exfalso
        have h3 := List.mem_singleton.1 h2
        have hseq : uuidv4 db.nextOrderSeq = uuidv4 o.created_at := by
          rw [← (hinv.idSeq o ho).1, ← hid, h3]
        have heq := uuidv4_injective hseq
        have hlt := (hinv.idSeq o ho).2
        omega
    · rw [hs] at ho2
      obtain ⟨o0, ho0, rfl⟩ := List.mem_map.1 ho2
      by_cases hcase : o0.id = oid
      · simp [hcase]
      · rw [if_neg hcase] at hid ⊢
        rw [inv_id_inj db hinv o0 ho0 o ho hid]
        exact hpaid
  · intro r o2 ho2 hfresh
    rcases step_orders_cases db r with hs | ⟨u, g, n, hs⟩ | ⟨oid, hs⟩
    · rw [hs] at ho2
      exact absurd rfl (hfresh o2 ho2)
    · rw [hs] at ho2
      rcases List.mem_append.1 ho2 with h2 | h2
      · exact absurd rfl (hfresh o2 h2)
      · rw [List.mem_singleton.1 h2]
    · rw [hs] at ho2
      obtain ⟨o0, ho0, rfl⟩ := List.mem_map.1 ho2
      exfalso
      apply hfresh o0 ho0
      by_cases hcase : o0.id = oid
      · simp [hcase]
      · simp [hcase]

theorem C3_status_machine_witness :
    (∀ o ∈ dbOne.orders, o.status = "PENDING" ∨ o.status = "PAID") ∧
    (∀ r : Req, ∀ o ∈ dbOne.orders, o.status = "PAID" →
      ∀ o2 ∈ (step dbOne r).orders, o2.id = o.id → o2.status = "PAID") ∧
    (∀ r : Req, ∀ o2 ∈ (step dbOne r).orders,
      (∀ o ∈ dbOne.orders, o.id ≠ o2.id) → o2.status = "PENDING") :=
  C3_status_machine dbOne (Reachable.next initDB _ Reachable.init)

/-- C4: for every valid CreateOrder input (user and game present and non-empty,
amount parsing to a positive integer) in a reachable state, the handler
persists a new order whose id was never issued before, with the submitted
fields and status PENDING, and answers with that orderId together with the
redirect URL to the success page carrying the id as a query parameter. -/
theorem C4_createOrder_unique (db : DB) (u g a : String) (n : Int)
    (proto host : String) (hr : Reachable db) (hu : u ≠ "") (hg : g ≠ "")
    (hpa : parseIntJS a = some n) (hn : 0 < n) :
    ∃ ord : Order,
      createOrder db (some u) (some g) (some a) proto host =
        (.ok ord.id (proto ++ "://" ++ host ++ "/success?order=" ++ ord.id),
         { db with
           orders := db.orders ++ [ord],
           nextOrderSeq := db.nextOrderSeq + 1 }) ∧
      ord.user = u ∧ ord.game = g ∧ ord.amount = n ∧ ord.status = "PENDING" ∧
      ∀ o ∈ db.orders, o.id ≠ ord.id := by
  have ha : a ≠ "" := by
    intro h0
    rw [h0] at hpa
    exact Option.noConfusion hpa
  refine ⟨{ id := uuidv4 db.nextOrderSeq, user := u, game := g, amount := n,
            status := "PENDING", created_at := db.nextOrderSeq },
          ?_, rfl, rfl, rfl, rfl, ?_⟩
  · simp [createOrder, jsFalsy, hu, hg, ha, hpa, hn.not_le]
  · intro o ho hid
    have hinv := reachable_inv db hr
    have h1 : uuidv4 o.created_at = uuidv4 db.nextOrderSeq := by
      rw [← (hinv.idSeq o ho).1]
      exact hid
    have h2 := uuidv4_injective h1
    have h3 := (hinv.idSeq o ho).2
    omega

theorem C4_createOrder_unique_witness :
    ∃ ord : Order,
      createOrder initDB (some "alice") (some "COIN-100") (some "50000")
        "http" "localhost:3000" =
        (.ok ord.id
          ("http" ++ "://" ++ "localhost:3000" ++ "/success?order=" ++ ord.id),
         { initDB with
           orders := initDB.orders ++ [ord],
           nextOrderSeq := initDB.nextOrderSeq + 1 }) ∧
      ord.user = "alice" ∧ ord.game = "COIN-100" ∧ ord.amount = 50000 ∧
      ord.status = "PENDING" ∧ ∀ o ∈ initDB.orders, o.id ≠ ord.id :=
  C4_createOrder_unique initDB "alice" "COIN-100" "50000" 50000
    "http" "localhost:3000" Reachable.init (by decide) (by decide)
    (by decide) (by decide)

/-- C5: without a session the orders listing answers 401 and carries no order
data; with a session it answers the query rows, which number at most 200, come
from the stored orders, are ordered by creation time descending, and are the
most recently created ones: any stored order not returned was created strictly
earlier than every returned one. -/
theorem C5_listOrders_auth (db : DB) (hr : Reachable db) :
    listOrders db none = .error 401 "unauth" ∧
    ∀ sd : SessionData,
      listOrders db (some sd) = .ok (ordersQuery db) ∧
      (ordersQuery db).length ≤ 200 ∧
      (∀ o ∈ ordersQuery db, o ∈ db.orders) ∧
      (ordersQuery db).Pairwise (fun o o2 => o2.created_at < o.created_at) ∧
      (∀ o2 ∈ db.orders, o2 ∉ ordersQuery db →
        ∀ o ∈ ordersQuery db, o2.created_at < o.created_at) := by
  have hinv := reachable_inv db hr
  have hrev : db.orders.reverse.Pairwise (fun o o2 => o2.created_at < o.created_at) :=
    List.pairwise_reverse.2 hinv.createdMono
  refine ⟨rfl, ?_⟩
  intro sd
  refine ⟨rfl, List.length_take_le _ _, ?_, hrev.sublist (List.take_sublist _ _), ?_⟩
  · intro o ho
    exact List.mem_reverse.1 (List.mem_of_mem_take ho)
  · intro o2 ho2 hnot o ho
    have hsplit : db.orders.reverse =
        db.orders.reverse.take 200 ++ db.orders.reverse.drop 200 :=
      (List.take_append_drop _ _).symm
    have ho2rev : o2 ∈ db.orders.reverse := List.mem_reverse.2 ho2
    have ho2drop : o2 ∈ db.orders.reverse.drop 200 := by
      rcases List.mem_append.1 (hsplit ▸ ho2rev) with h2 | h2
      · exact absurd h2 hnot
      · exact h2
    have hp2 := hsplit ▸ hrev
    exact (List.pairwise_append.1 hp2).2.2 o ho o2 ho2drop

theorem C5_listOrders_auth_witness :
    listOrders dbOne none = .error 401 "unauth" ∧
    ∀ sd : SessionData,
      listOrders dbOne (some sd) = .ok (ordersQuery dbOne) ∧
      (ordersQuery dbOne).length ≤ 200 ∧
      (∀ o ∈ ordersQuery dbOne, o ∈ dbOne.orders) ∧
      (ordersQuery dbOne).Pairwise (fun o o2 => o2.created_at < o.created_at) ∧
      (∀ o2 ∈ dbOne.orders, o2 ∉ ordersQuery dbOne →
        ∀ o ∈ ordersQuery dbOne, o2.created_at < o.created_at) :=
  C5_listOrders_auth dbOne (Reachable.next initDB _ Reachable.init)

/-- C6: Login answers 400 when username or password is JavaScript-falsy and
establishes no session; with both present, it answers 401 with no session when
no admin row matches the username or when the bcrypt comparison fails, and on
success it answers ok with a session bound exactly to the matched admin's id
and username. -/
theorem C6_login_cases (db : DB) (username password : Option String) :
    ((jsFalsy username = true ∨ jsFalsy password = true) →
      login db username password = (.error 400 "Missing", none)) ∧
    (jsFalsy username = false → jsFalsy password = false →
      (findAdmin db.admins (username.getD "") = none →
        login db username password = (.error 401 "Unauthorized", none)) ∧
      (∀ row : Admin, findAdmin db.admins (username.getD "") = some row →
        (bcryptCompare (password.getD "") row.password_hash = false →
          login db username password = (.error 401 "Unauthorized", none)) ∧
        (bcryptCompare (password.getD "") row.password_hash = true →
          login db username password =
            (.ok, some { id := row.id, username := row.username })))) := by
  constructor
  · intro h
    rcases h with h | h <;> simp [login, h]
  · intro hfu hfp
    refine ⟨?_, ?_⟩
    · intro hnone
      simp [login, hfu, hfp, hnone]
    · intro row hrow
      refine ⟨?_, ?_⟩

      · intro hcmp
        simp [login, hfu, hfp, hrow, hcmp]
      · intro hcmp
        simp [login, hfu, hfp, hrow, hcmp]

theorem C6_login_cases_witness :
    login initDB (some "admin") (some "changeit") =
      (.ok, some { id := 1, username := "admin" }) :=
  (((C6_login_cases initDB (some "admin") (some "changeit")).2
      (by decide) (by decide)).2
    { id := 1, username := "admin", password_hash := bcryptHash "changeit" }
    (by decide)).2 (by decide)

theorem markPaid_map_idem (l : List Order) (s : String) :
    (l.map (fun o => if o.id = s then { o with status := "PAID" } else o)).map
      (fun o => if o.id = s then { o with status := "PAID" } else o) =
    l.map (fun o => if o.id = s then { o with status := "PAID" } else o) := by
  rw [List.map_map]
  apply List.map_congr_left
  intro o _
  by_cases hcase : o.id = s
  · simp [Function.comp, hcase]
  · simp [Function.comp, hcase]

/-- C7: for an order present in a reachable store with status PENDING, one
MarkPaid call on its id answers ok and transitions that order's status to PAID
(every stored order carrying that id is PAID afterwards), and a subsequent
MarkPaid call on the same id is idempotent: it answers ok and leaves the store
exactly as it was before the repeated call. -/
theorem C7_markPaid_idempotent (db : DB) (o : Order) (hr : Reachable db)
    (ho : o ∈ db.orders) (_hp : o.status = "PENDING") :
    (markPaid db (some o.id)).1 = .ok ∧
    { o with status := "PAID" } ∈ (markPaid db (some o.id)).2.orders ∧
    (∀ o2 ∈ (markPaid db (some o.id)).2.orders, o2.id = o.id →
      o2.status = "PAID") ∧
    markPaid (markPaid db (some o.id)).2 (some o.id) =
      (.ok, (markPaid db (some o.id)).2) := by
  have hinv := reachable_inv db hr
  have hne : o.id ≠ "" := by
    rw [(hinv.idSeq o ho).1]
    exact uuidv4_ne_empty _
  have hfal : jsFalsy (some o.id) = false := by simp [jsFalsy, hne]
  have hfst : markPaid db (some o.id) =
      (.ok, { db with orders := db.orders.map (fun o2 =>
          if o2.id = o.id then { o2 with status := "PAID" } else o2) }) := by
    simp [markPaid, hfal]
  refine ⟨by rw [hfst], ?_, ?_, ?_⟩
  · rw [hfst]
    refine List.mem_map.2 ⟨o, ho, ?_⟩
    simp
  · intro o2 ho2 hid
    rw [hfst] at ho2
    obtain ⟨o0, ho0, rfl⟩ := List.mem_map.1 ho2
    by_cases hcase : o0.id = o.id
    · simp [hcase]
    · rw [if_neg hcase] at hid
      exact absurd hid hcase
  · rw [hfst]
    simp only [markPaid, hfal, Bool.false_eq_true, if_false, Option.getD_some]
    rw [markPaid_map_idem]

theorem C7_markPaid_idempotent_witness :
    (markPaid dbOne (some ordOne.id)).1 = .ok ∧
    { ordOne with status := "PAID" } ∈ (markPaid dbOne (some ordOne.id)).2.orders ∧
    (∀ o2 ∈ (markPaid dbOne (some ordOne.id)).2.orders, o2.id = ordOne.id →
      o2.status = "PAID") ∧
    markPaid (markPaid dbOne (some ordOne.id)).2 (some ordOne.id) =
      (.ok, (markPaid dbOne (some ordOne.id)).2) :=
  C7_markPaid_idempotent dbOne ordOne (Reachable.next initDB _ Reachable.init)
    (by decide) (by decide)

/-- C8: every order present in a reachable store is retrievable through an
authenticated ListOrders call with identical field values, for as long as
fewer than 200 stored orders were created after it (it is still among the 200
most recently created ones). -/
theorem C8_roundtrip (db : DB) (o : Order) (sd : SessionData) (hr : Reachable db)
    (ho : o ∈ db.orders)
    (hrecent : (db.orders.filter
      (fun o2 => o.created_at < o2.created_at)).length < 200) :
    listOrders db (some sd) = .ok (ordersQuery db) ∧
    ∃ o2 ∈ ordersQuery db, o2.id = o.id ∧ o2.user = o.user ∧ o2.game = o.game ∧
      o2.amount = o.amount ∧ o2.status = o.status := by
  have hinv := reachable_inv db hr
  have hrev : db.orders.reverse.Pairwise (fun a b => b.created_at < a.created_at) :=
    List.pairwise_reverse.2 hinv.createdMono
  obtain ⟨l1, l2, hsplit⟩ := List.append_of_mem (List.mem_reverse.2 ho)
  have hl1 : ∀ x ∈ l1, o.created_at < x.created_at := by
    intro x hx
    exact (List.pairwise_append.1 (hsplit ▸ hrev)).2.2 x hx o (List.mem_cons_self _ _)
  have hlen : l1.length < 200 := by
    have hfil : l1.filter (fun o2 => o.created_at < o2.created_at) = l1 :=
      List.filter_eq_self.2 (fun x hx => by simpa using hl1 x hx)
    have hsub : List.Sublist l1 db.orders.reverse :=
      hsplit.symm ▸ List.sublist_append_left l1 (o :: l2)
    have hsubf := hsub.filter (fun o2 => decide (o.created_at < o2.created_at))
    have hle := hsubf.length_le
    rw [hfil] at hle
    have hperm :=
      ((List.reverse_perm db.orders).filter
        (fun o2 => decide (o.created_at < o2.created_at))).length_eq
    omega
  have hmem : o ∈ (db.orders.reverse).take 200 := by
    rw [hsplit, List.take_append_eq_append_take]
    cases hk : 200 - l1.length with
    | zero => exact absurd hk (Nat.sub_ne_zero_of_lt hlen)
    | succ k =>
      refine List.mem_append.2 (Or.inr ?_)
      rw [List.take_succ_cons]
      exact List.mem_cons_self _ _
  exact ⟨rfl, o, hmem, rfl, rfl, rfl, rfl, rfl⟩

theorem C8_roundtrip_witness :
    listOrders dbOne (some { id := 1, username := "admin" }) =
      .ok (ordersQuery dbOne) ∧
    ∃ o2 ∈ ordersQuery dbOne, o2.id = ordOne.id ∧ o2.user = ordOne.user ∧
      o2.game = ordOne.game ∧ o2.amount = ordOne.amount ∧
      o2.status = ordOne.status :=
  C8_roundtrip dbOne ordOne { id := 1, username := "admin" }
    (Reachable.next initDB _ Reachable.init) (by decide) (by decide)

/-- C9: the seed admin account is created exactly when the admins table is
empty: on an empty table exactly one account is inserted, with the fixed
default username 'admin' and the stored one-way hash of the fixed default
password 'changeit' (accepted by the comparison); on a non-empty table nothing
changes; and in every reachable state the stored admin usernames are distinct,
the storage-layer UNIQUE constraint. -/
theorem C9_admin_seeding (db : DB) :
    (db.admins = [] →
      (seedAdmins db).admins =
        [{ id := db.nextAdminId, username := "admin",
           password_hash := bcryptHash "changeit" }] ∧
      bcryptCompare "changeit" (bcryptHash "changeit") = true) ∧
    (db.admins ≠ [] → seedAdmins db = db) ∧
    (Reachable db → (db.admins.map (fun a => a.username)).Nodup) := by
  refine ⟨?_, ?_, ?_⟩
  · intro h
    refine ⟨?_, ?_⟩
    · simp [seedAdmins, h]
    · simp [bcryptCompare]
  · intro h
    simp [seedAdmins, List.length_eq_zero, h]
  · intro hr
    exact (reachable_inv db hr).adminsNodup

theorem C9_admin_seeding_witness :
    (seedAdmins emptyDB).admins =
      [{ id := emptyDB.nextAdminId, username := "admin",
         password_hash := bcryptHash "changeit" }] ∧
    bcryptCompare "changeit" (bcryptHash "changeit") = true :=
  (C9_admin_seeding emptyDB).1 rfl

end Robekc
